import Mathlib

/-!
# SkiaKit: the umbrella header `Sources/CSkiaSharp/include/umbrella.h`

The header is embedded as the list of its text lines.  A small line lexer
(comment stripping, directive recognition) and a model of the conditional
inclusion performed by the C preprocessor are defined over that list, and the
properties of the header are proved about them.
-/

namespace SkiaKit

/-! ## The source text -/

/-- The 47 lines of `umbrella.h`, in file order (the last line has no
terminating newline). -/
def umbrella_h : List String := [
  "//",
  "//  SkiaKit.h",
  "//  SkiaKit",
  "//",
  "//  Created by Miguel de Icaza on 10/25/19.",
  "//",
  "",
  "#ifndef SkiaKit_h",
  "#define SkiaKit_h",
  "",
  "#include \"sk_types.h\"",
  "#include \"gr_context.h\"",
  "#include \"sk_bitmap.h\"",
  "#include \"sk_canvas.h\"",
  "#include \"sk_codec.h\"",
  "#include \"sk_colorfilter.h\"",
  "#include \"sk_colorspace.h\"",
  "#include \"sk_colortable.h\"",
  "#include \"sk_data.h\"",
  "#include \"sk_document.h\"",
  "#include \"sk_drawable.h\"",
  "#include \"sk_font.h\"",
  "#include \"sk_general.h\"",
  "#include \"sk_image.h\"",
  "#include \"sk_imagefilter.h\"",
  "#include \"sk_mask.h\"",
  "#include \"sk_maskfilter.h\"",
  "#include \"sk_matrix.h\"",
  "#include \"sk_paint.h\"",
  "#include \"sk_path.h\"",
  "#include \"sk_patheffect.h\"",
  "#include \"sk_picture.h\"",
  "#include \"sk_pixmap.h\"",
  "#include \"sk_region.h\"",
  "#include \"sk_rrect.h\"",
  "#include \"sk_shader.h\"",
  "#include \"sk_stream.h\"",
  "#include \"sk_string.h\"",
  "#include \"sk_surface.h\"",
  "#include \"sk_svg.h\"",
  "#include \"sk_textblob.h\"",
  "#include \"sk_typeface.h\"",
  "",
  "#include \"sk_vertices.h\"",
  "#include \"sk_xml.h\"",
  "",
  "#endif /* SkiaKit_h */"
]

/-! ## Line lexer -/

/-- Lexer mode while scanning one line: plain text, just after a `/` in plain
text, inside a block comment, just after a `*` inside a block comment, inside
a string literal, inside a `//` comment. -/
inductive LexMode where
  | text
  | slash
  | block
  | blockStar
  | quoted
  | lineComment
  deriving DecidableEq, Repr

/-- The double quote character. -/
def dquote : Char := Char.ofNat 34

/-- One character of comment stripping.  The state is the mode and the text
kept so far.  A block comment is replaced by one blank, the text of a string
literal is kept as it is. -/
def lexStep (st : LexMode × List Char) (c : Char) : LexMode × List Char :=
  match st.1 with
  | .text =>
    if c = '/' then (.slash, st.2)
    else if c = dquote then (.quoted, st.2 ++ [c])
    else (.text, st.2 ++ [c])
  | .slash =>
    if c = '/' then (.lineComment, st.2)
    else if c = '*' then (.block, st.2 ++ [' '])
    else if c = dquote then (.quoted, st.2 ++ ['/', c])
    else (.text, st.2 ++ ['/', c])
  | .block => if c = '*' then (.blockStar, st.2) else (.block, st.2)
  | .blockStar =>
    if c = '/' then (.text, st.2)
    else if c = '*' then (.blockStar, st.2)
    else (.block, st.2)
  | .quoted =>
    if c = dquote then (.text, st.2 ++ [c]) else (.quoted, st.2 ++ [c])
  | .lineComment => (.lineComment, st.2)

/-- The text of one line without its comments; `none` when a block comment or
a string literal is still open at the end of the line. -/
def stripComments (cs : List Char) : Option (List Char) :=
  match cs.foldl lexStep (.text, []) with
  | (.text, out) => some out
  | (.lineComment, out) => some out
  | (.slash, out) => some (out ++ ['/'])
  | _ => none

/-- Drops leading white space. -/
def dropSpaces : List Char → List Char
  | [] => []
  | c :: cs => if c.isWhitespace then dropSpaces cs else c :: cs

/-- Splits off the leading run of non-blank characters. -/
def takeWord : List Char → List Char × List Char
  | [] => ([], [])
  | c :: cs =>
    if c.isWhitespace then ([], c :: cs)
    else ((takeWord cs).1.cons c, (takeWord cs).2)

/-- Whether a text is white space only. -/
def isBlank (cs : List Char) : Bool := (dropSpaces cs).isEmpty

/-- The header named by the operand of an include directive, written
between double quotes or between angle brackets; `none` when the operand is
not of that form or text follows it. -/
def headerName (operand : List Char) : Option String :=
  match dropSpaces operand with
  | [] => none
  | o :: rest =>
    let close : Char := if o = '<' then '>' else dquote
    if o = dquote ∨ o = '<' then
      let name := rest.takeWhile (fun c => c != close)
      let after := (rest.dropWhile (fun c => c != close))
      match after with
      | [] => none
      | _ :: tl => if isBlank tl ∧ name ≠ [] then some (String.mk name) else none
    else none

/-- What one line of the header is. -/
inductive Line where
  /-- White space only. -/
  | blank
  /-- Nothing but comments and white space. -/
  | comment
  /-- Conditional `#ifndef NAME`. -/
  | ifndefDir (name : String)
  /-- Object-like macro definition `#define NAME body`. -/
  | defineDir (name : String) (body : String)
  /-- Inclusion `#include "header"`. -/
  | includeDir (header : String)
  /-- The directive `#endif`. -/
  | endifDir
  /-- Anything else: a declaration, a statement, another directive, or a line
  the lexer cannot close. -/
  | code (text : String)
  deriving DecidableEq, Repr

/-- Classifies the directive that follows the `#`. -/
def classifyDirective (orig : String) (afterHash : List Char) : Line :=
  let w := takeWord (dropSpaces afterHash)
  let kw := String.mk w.1
  let operand := dropSpaces w.2
  if kw = "ifndef" then
    let n := takeWord operand
    if n.1 ≠ [] ∧ isBlank n.2 then .ifndefDir (String.mk n.1) else .code orig
  else if kw = "define" then
    let n := takeWord operand
    if n.1 ≠ [] ∧ ¬ n.1.contains '(' then
      .defineDir (String.mk n.1) (String.mk (dropSpaces n.2))
    else .code orig
  else if kw = "include" then
    match headerName operand with
    | some h => .includeDir h
    | none => .code orig
  else if kw = "endif" then
    if isBlank operand then .endifDir else .code orig
  else .code orig

/-- Classifies one line of text. -/
def classify (s : String) : Line :=
  if isBlank s.data then .blank
  else
    match stripComments s.data with
    | none => .code s
    | some t =>
      match dropSpaces t with
      | [] => .comment
      | c :: rest => if c = '#' then classifyDirective s rest else .code s

/-- The lines of a file, classified. -/
def parse (file : List String) : List Line := file.map classify

/-- The headers named by the include directives, in file order. -/
def includedHeaders : List Line → List String
  | [] => []
  | .includeDir h :: r => h :: includedHeaders r
  | _ :: r => includedHeaders r

/-- Whether a line is blank or a comment. -/
def Line.isTrivia : Line → Bool
  | .blank => true
  | .comment => true
  | _ => false

/-- Whether a line is one of the four directives `#ifndef`, `#define` (of a
macro with no body), `#include`, `#endif`. -/
def Line.isGuardOrInclude : Line → Bool
  | .ifndefDir _ => true
  | .defineDir _ body => body.isEmpty
  | .includeDir _ => true
  | .endifDir => true
  | _ => false

/-! ## Conditional inclusion -/

/-- State of the preprocessor while it reads a file: the set of defined
macros, the number of conditionals open in text that is being read, the number
of conditionals open in text that is being skipped (0 when the text is read),
and the headers whose inclusion was requested so far.  An included header is
recorded, not read. -/
structure Cpp where
  defined : Finset String
  active : Nat
  skipping : Nat
  emitted : List String

/-- Effect of one line; `none` for an `#endif` that closes no conditional. -/
def cppStep (st : Cpp) : Line → Option Cpp
  | .ifndefDir n =>
    if st.skipping ≠ 0 then some { st with skipping := st.skipping + 1 }
    else if n ∈ st.defined then some { st with skipping := 1 }
    else some { st with active := st.active + 1 }
  | .endifDir =>
    if st.skipping ≠ 0 then some { st with skipping := st.skipping - 1 }
    else if st.active ≠ 0 then some { st with active := st.active - 1 }
    else none
  | .defineDir n _ =>
    if st.skipping = 0 then some { st with defined := insert n st.defined } else some st
  | .includeDir h =>
    if st.skipping = 0 then some { st with emitted := st.emitted ++ [h] } else some st
  | _ => some st

/-- Reads the lines in order. -/
def cppRun (st : Cpp) : List Line → Option Cpp
  | [] => some st
  | l :: r =>
    match cppStep st l with
    | none => none
    | some st1 => cppRun st1 r

/-- Processes a file from a set of defined macros: the headers it asks to
include, in order, and the set of macros defined afterwards; `none` when its
conditionals are not balanced. -/
def preprocess (file : List Line) (defs : Finset String) :
    Option (List String × Finset String) :=
  match cppRun { defined := defs, active := 0, skipping := 0, emitted := [] } file with
  | none => none
  | some st =>
    if st.active = 0 ∧ st.skipping = 0 then some (st.emitted, st.defined) else none

/-- Processes a file twice in a row: the second pass starts from the macros
the first one leaves, and its inclusions follow those of the first. -/
def preprocessTwice (file : List Line) (defs : Finset String) :
    Option (List String × Finset String) :=
  match preprocess file defs with
  | none => none
  | some r1 =>
    match preprocess file r1.2 with
    | none => none
    | some r2 => some (r1.1 ++ r2.1, r2.2)

/-- The capabilities the specification names, each with the header that
declares it. -/
def capabilityHeaders : List (String × String) := [
  ("canvas drawing", "sk_canvas.h"),
  ("paths", "sk_path.h"),
  ("images", "sk_image.h"),
  ("typefaces", "sk_typeface.h"),
  ("shaders", "sk_shader.h"),
  ("document/PDF export", "sk_document.h"),
  ("SVG", "sk_svg.h"),
  ("vertices", "sk_vertices.h"),
  ("codecs", "sk_codec.h"),
  ("color management", "sk_colorspace.h")
]

/-- The lines that are neither blank nor a comment. -/
def significantLines (file : List Line) : List Line :=
  file.filter (fun l => !l.isTrivia)

/-- Whether a list of lines is an include guard around include directives
only: `#ifndef G`, `#define G` with no body, include directives, `#endif`. -/
def isGuardedIncludeList : List Line → Bool
  | .ifndefDir g :: .defineDir g1 body :: rest =>
    g == g1 && body.isEmpty &&
      (match rest.getLast? with
       | some .endifDir =>
         rest.dropLast.all (fun l => match l with | .includeDir _ => true | _ => false)
       | _ => false)
  | _ => false

/-! ## The drawing core the specification describes

`umbrella.h` only names `sk_matrix.h`, `sk_canvas.h`, `sk_path.h` and
`sk_paint.h`; the components below are modelled from the text of the
specification (sections 3, 4, 6 and 7).  The scalar type `F` and its arithmetic
are parameters of the model.
-/

/-- Modelled from the spec: the cosine and sine of the scalar type, which the
rotation of the Transform Stack needs and the specification leaves to the
floating-point arithmetic. -/
class Trig (F : Type) where
  cos : F → F
  sin : F → F

/-- Modelled from the spec: Point, a pair of coordinates (section 3); the
declaration lives in `sk_types.h`, which is not part of the supplied source. -/
structure Point (F : Type) where
  x : F
  y : F
  deriving DecidableEq, Repr

/-- Modelled from the spec: Transform, a 2x3 matrix representing the affine
map `(x, y) ↦ (m11 x + m12 y + m13, m21 x + m22 y + m23)` (section 3); the
declaration lives in `sk_matrix.h`, which is not part of the supplied source. -/
structure Transform (F : Type) where
  m11 : F
  m12 : F
  m13 : F
  m21 : F
  m22 : F
  m23 : F
  deriving DecidableEq, Repr

/-- Modelled from the spec: PathSegment, the tagged variant of section 3; the
declaration lives in `sk_path.h`, which is not part of the supplied source. -/
inductive PathSegment (F : Type) where
  | moveTo (p : Point F)
  | lineTo (p : Point F)
  | cubicTo (p1 p2 p3 : Point F)
  | quadTo (p1 p2 : Point F)
  | close
  deriving DecidableEq, Repr

/-- Modelled from the spec: Path, an ordered sequence of PathSegment, sealed
(section 3). -/
structure Path (F : Type) where
  segments : List (PathSegment F)
  deriving DecidableEq, Repr

/-- Modelled from the spec: RenderError, the failure of the external Renderer
Sink, which the core does not interpret (section 7). -/
structure RenderError where
  detail : String
  deriving DecidableEq, Repr

/-- Modelled from the spec: the error taxonomy of section 7. -/
inductive CoreError where
  | invalidPathState
  | stackUnderflow
  | emptyPath
  | renderError (e : RenderError)
  deriving DecidableEq, Repr

/-- Modelled from the spec: the stroke caps of Paint (section 3). -/
inductive StrokeCap where
  | butt
  | round
  | square
  deriving DecidableEq, Repr

/-- Modelled from the spec: the stroke joins of Paint (section 3). -/
inductive StrokeJoin where
  | miter
  | round
  | bevel
  deriving DecidableEq, Repr

/-- Modelled from the spec: the paint styles of Paint (section 3). -/
inductive PaintStyle where
  | fill
  | stroke
  | strokeAndFill
  deriving DecidableEq, Repr

/-- Modelled from the spec: the blend mode of Paint, an enumeration whose
members the specification does not list; a member is given by its index. -/
structure BlendMode where
  index : Nat
  deriving DecidableEq, Repr

/-- Modelled from the spec: an RGBA colour (section 3). -/
structure RGBA (F : Type) where
  r : F
  g : F
  b : F
  a : F
  deriving DecidableEq, Repr

/-- Modelled from the spec: Paint, the immutable style value of section 3;
the declaration lives in `sk_paint.h`, which is not part of the supplied
source. -/
structure Paint (F : Type) where
  fillColor : RGBA F
  strokeWidth : F
  strokeCap : StrokeCap
  strokeJoin : StrokeJoin
  blendMode : BlendMode
  style : PaintStyle
  deriving DecidableEq, Repr

section Core

variable {F : Type}

/-- Modelled from the spec: the identity Transform, the default (section 3). -/
def Transform.identity [Zero F] [One F] : Transform F :=
  { m11 := 1, m12 := 0, m13 := 0, m21 := 0, m22 := 1, m23 := 0 }

/-- Modelled from the spec: composition of Transforms by matrix
multiplication (section 3); `mul m n` maps a point by `n`, then by `m`. -/
def Transform.mul [Add F] [Mul F] (m n : Transform F) : Transform F :=
  { m11 := m.m11 * n.m11 + m.m12 * n.m21
    m12 := m.m11 * n.m12 + m.m12 * n.m22
    m13 := m.m11 * n.m13 + m.m12 * n.m23 + m.m13
    m21 := m.m21 * n.m11 + m.m22 * n.m21
    m22 := m.m21 * n.m12 + m.m22 * n.m22
    m23 := m.m21 * n.m13 + m.m22 * n.m23 + m.m23 }

/-- Modelled from the spec: the affine map of a Transform at a Point. -/
def Transform.apply [Add F] [Mul F] (m : Transform F) (p : Point F) : Point F :=
  { x := m.m11 * p.x + m.m12 * p.y + m.m13
    y := m.m21 * p.x + m.m22 * p.y + m.m23 }

/-- Modelled from the spec: the matrix of a translation. -/
def Transform.translation [Zero F] [One F] (dx dy : F) : Transform F :=
  { m11 := 1, m12 := 0, m13 := dx, m21 := 0, m22 := 1, m23 := dy }

/-- Modelled from the spec: the matrix of a scaling. -/
def Transform.scaling [Zero F] (sx sy : F) : Transform F :=
  { m11 := sx, m12 := 0, m13 := 0, m21 := 0, m22 := sy, m23 := 0 }

/-- Modelled from the spec: the matrix of a rotation by an angle. -/
def Transform.rotation [Zero F] [Neg F] [Trig F] (angle : F) : Transform F :=
  { m11 := Trig.cos angle, m12 := - Trig.sin angle, m13 := 0
    m21 := Trig.sin angle, m22 := Trig.cos angle, m23 := 0 }

/-- Modelled from the spec: the matrix of a skew. -/
def Transform.skewing [Zero F] [One F] (kx ky : F) : Transform F :=
  { m11 := 1, m12 := kx, m13 := 0, m21 := ky, m22 := 1, m23 := 0 }

/-- Modelled from the spec: the map of a Transform on the points of a
segment. -/
def PathSegment.transform [Add F] [Mul F] (m : Transform F) :
    PathSegment F → PathSegment F
  | .moveTo p => .moveTo (m.apply p)
  | .lineTo p => .lineTo (m.apply p)
  | .cubicTo p1 p2 p3 => .cubicTo (m.apply p1) (m.apply p2) (m.apply p3)
  | .quadTo p1 p2 => .quadTo (m.apply p1) (m.apply p2)
  | .close => .close

/-! ### Path Builder (section 4.1) -/

/-- Modelled from the spec: the Path Builder, which accumulates the segments
in call order (sections 2 and 4.1); the implementation behind `sk_path.h` is
not part of the supplied source. -/
structure PathBuilder (F : Type) where
  segments : List (PathSegment F)
  deriving DecidableEq, Repr

/-- Modelled from the spec: whether a `moveTo` exists in the current subpath,
read on the segments from the most recent one back: a `close` ends the
subpath it closes, so the search stops there. -/
def subpathHasMoveTo : List (PathSegment F) → Bool
  | [] => false
  | .moveTo _ :: _ => true
  | .close :: _ => false
  | _ :: r => subpathHasMoveTo r

/-- Modelled from the spec: the empty Path Builder. -/
def PathBuilder.empty : PathBuilder F := { segments := [] }

/-- Modelled from the spec: whether the current subpath of the builder has a
prior `moveTo`. -/
def PathBuilder.hasMoveTo (b : PathBuilder F) : Bool :=
  subpathHasMoveTo b.segments.reverse

/-- Modelled from the spec: `moveTo(p)` (section 4.1). -/
def PathBuilder.moveTo (b : PathBuilder F) (p : Point F) :
    Except CoreError (PathBuilder F) :=
  .ok { segments := b.segments ++ [.moveTo p] }

/-- Modelled from the spec: `lineTo(p)`, which fails with `InvalidPathState`
if no prior `moveTo` exists in the current subpath (section 4.1). -/
def PathBuilder.lineTo (b : PathBuilder F) (p : Point F) :
    Except CoreError (PathBuilder F) :=
  if b.hasMoveTo then .ok { segments := b.segments ++ [.lineTo p] }
  else .error .invalidPathState

/-- Modelled from the spec: `cubicTo(p1,p2,p3)`, which fails with
`InvalidPathState` if no prior `moveTo` exists in the current subpath
(section 4.1). -/
def PathBuilder.cubicTo (b : PathBuilder F) (p1 p2 p3 : Point F) :
    Except CoreError (PathBuilder F) :=
  if b.hasMoveTo then .ok { segments := b.segments ++ [.cubicTo p1 p2 p3] }
  else .error .invalidPathState

/-- Modelled from the spec: `quadTo(p1,p2)`, which fails with
`InvalidPathState` if no prior `moveTo` exists in the current subpath
(section 4.1). -/
def PathBuilder.quadTo (b : PathBuilder F) (p1 p2 : Point F) :
    Except CoreError (PathBuilder F) :=
  if b.hasMoveTo then .ok { segments := b.segments ++ [.quadTo p1 p2] }
  else .error .invalidPathState

/-- Modelled from the spec: `close()`, which fails with `InvalidPathState` if
no prior `moveTo` exists in the current subpath (section 4.1). -/
def PathBuilder.close (b : PathBuilder F) : Except CoreError (PathBuilder F) :=
  if b.hasMoveTo then .ok { segments := b.segments ++ [.close] }
  else .error .invalidPathState

/-- Modelled from the spec: `build()`, which seals the accumulated segments
into a Path and resets the builder to empty (section 4.1). -/
def PathBuilder.build (b : PathBuilder F) : Path F × PathBuilder F :=
  ({ segments := b.segments }, PathBuilder.empty)

/-! ### Transform Stack (section 4.2) -/

/-- Modelled from the spec: the Transform Stack, its top and the transforms
saved below it, the most recent first (sections 2 and 4.2); the
implementation behind `sk_canvas.h` and `sk_matrix.h` is not part of the
supplied source. -/
structure TransformStack (F : Type) where
  top : Transform F
  saved : List (Transform F)
  deriving DecidableEq, Repr

/-- Modelled from the spec: a new stack holds only the base identity. -/
def TransformStack.new [Zero F] [One F] : TransformStack F :=
  { top := Transform.identity, saved := [] }

/-- Modelled from the spec: `current()` returns the composed top. -/
def TransformStack.current (s : TransformStack F) : Transform F := s.top

/-- Modelled from the spec: `push()` duplicates the top transform onto the
stack. -/
def TransformStack.push (s : TransformStack F) : TransformStack F :=
  { top := s.top, saved := s.top :: s.saved }

/-- Modelled from the spec: `pop()` fails with `StackUnderflow` if the stack
holds only the base; otherwise it drops the top. -/
def TransformStack.pop (s : TransformStack F) : Except CoreError (TransformStack F) :=
  match s.saved with
  | [] => .error .stackUnderflow
  | t :: r => .ok { top := t, saved := r }

/-- Modelled from the spec: a transform operation right-multiplies the top
transform. -/
def TransformStack.concat [Add F] [Mul F] (s : TransformStack F) (m : Transform F) :
    TransformStack F :=
  { top := s.top.mul m, saved := s.saved }

/-- Modelled from the spec: `translate(params)`. -/
def TransformStack.translate [Add F] [Mul F] [Zero F] [One F]
    (s : TransformStack F) (dx dy : F) : TransformStack F :=
  s.concat (Transform.translation dx dy)

/-- Modelled from the spec: `scale(params)`. -/
def TransformStack.scale [Add F] [Mul F] [Zero F]
    (s : TransformStack F) (sx sy : F) : TransformStack F :=
  s.concat (Transform.scaling sx sy)

/-- Modelled from the spec: `rotate(params)`. -/
def TransformStack.rotate [Add F] [Mul F] [Zero F] [Neg F] [Trig F]
    (s : TransformStack F) (angle : F) : TransformStack F :=
  s.concat (Transform.rotation angle)

/-- Modelled from the spec: `skew(params)`. -/
def TransformStack.skew [Add F] [Mul F] [Zero F] [One F]
    (s : TransformStack F) (kx ky : F) : TransformStack F :=
  s.concat (Transform.skewing kx ky)

/-- One call on a Transform Stack. -/
inductive StackOp (F : Type) where
  | push
  | pop
  | translate (dx dy : F)
  | scale (sx sy : F)
  | rotate (angle : F)
  | skew (kx ky : F)
  deriving DecidableEq, Repr

/-- The effect of one call on a Transform Stack. -/
def TransformStack.step [Add F] [Mul F] [Zero F] [One F] [Neg F] [Trig F]
    (s : TransformStack F) : StackOp F → Except CoreError (TransformStack F)
  | .push => .ok s.push
  | .pop => s.pop
  | .translate dx dy => .ok (s.translate dx dy)
  | .scale sx sy => .ok (s.scale sx sy)
  | .rotate angle => .ok (s.rotate angle)
  | .skew kx ky => .ok (s.skew kx ky)

/-- The effect of a sequence of calls, which stops at the first failure. -/
def TransformStack.run [Add F] [Mul F] [Zero F] [One F] [Neg F] [Trig F]
    (s : TransformStack F) : List (StackOp F) → Except CoreError (TransformStack F)
  | [] => .ok s
  | op :: r =>
    match s.step op with
    | .error e => .error e
    | .ok s1 => s1.run r

/-- Whether, in a sequence of calls entered with `depth` pushes open, every
`pop` matches a `push` of the sequence or one of those, and every one of
them is matched at the end. -/
def matched : Nat → List (StackOp F) → Bool
  | depth, [] => depth == 0
  | depth, .push :: r => matched (depth + 1) r
  | 0, .pop :: _ => false
  | depth + 1, .pop :: r => matched depth r
  | depth, _ :: r => matched depth r

/-! ### Draw Context (section 4.4) -/

/-- Modelled from the spec: DrawInstruction, which bundles the path resolved
to device space, the Paint and the active blend state (section 6).  The
specification defines no clip operation, so no clip state is carried. -/
structure DrawInstruction (F : Type) where
  geometry : Path F
  paint : Paint F
  blend : BlendMode
  deriving DecidableEq, Repr

/-- Modelled from the spec: the Draw Context, which owns a Transform Stack
(section 3); the implementation behind `sk_canvas.h` is not part of the
supplied source. -/
structure DrawContext (F : Type) where
  stack : TransformStack F
  deriving DecidableEq, Repr

/-- Modelled from the spec: a Draw Context as created for a session. -/
def DrawContext.create [Zero F] [One F] : DrawContext F :=
  { stack := TransformStack.new }

/-- Modelled from the spec: `save()` delegates to `push`. -/
def DrawContext.save (c : DrawContext F) : DrawContext F :=
  { stack := c.stack.push }

/-- Modelled from the spec: `restore()` delegates to `pop`. -/
def DrawContext.restore (c : DrawContext F) : Except CoreError (DrawContext F) :=
  match c.stack.pop with
  | .error e => .error e
  | .ok s => .ok { stack := s }

/-- Modelled from the spec: the normalized draw instruction of a path and a
paint under the current transform. -/
def DrawContext.instruction [Add F] [Mul F] (c : DrawContext F) (path : Path F)
    (paint : Paint F) : DrawInstruction F :=
  { geometry := { segments := path.segments.map (PathSegment.transform c.stack.current) }
    paint := paint
    blend := paint.blendMode }

/-- Modelled from the spec: `drawPath(path, paint)`, which fails with
`EmptyPath` if the path has zero segments, and otherwise submits the
instruction to the Renderer Sink and hands its failure on unmodified
(sections 4.4, 6 and 7). -/
def DrawContext.drawPath [Add F] [Mul F]
    (sink : DrawInstruction F → Except RenderError Unit)
    (c : DrawContext F) (path : Path F) (paint : Paint F) : Except CoreError Unit :=
  if path.segments.isEmpty then .error .emptyPath
  else
    match sink (c.instruction path paint) with
    | .ok u => .ok u
    | .error e => .error (.renderError e)

end Core

/-! ### Sequences of Path Builder calls -/

section Calls

variable {F : Type}

/-- One call on a Path Builder. -/
inductive BuilderOp (F : Type) where
  | moveTo (p : Point F)
  | lineTo (p : Point F)
  | cubicTo (p1 p2 p3 : Point F)
  | quadTo (p1 p2 : Point F)
  | close
  deriving DecidableEq, Repr

/-- The effect of one call on a Path Builder. -/
def PathBuilder.step (b : PathBuilder F) : BuilderOp F → Except CoreError (PathBuilder F)
  | .moveTo p => b.moveTo p
  | .lineTo p => b.lineTo p
  | .cubicTo p1 p2 p3 => b.cubicTo p1 p2 p3
  | .quadTo p1 p2 => b.quadTo p1 p2
  | .close => b.close

/-- The effect of a sequence of calls, which stops at the first failure. -/
def PathBuilder.run (b : PathBuilder F) : List (BuilderOp F) → Except CoreError (PathBuilder F)
  | [] => .ok b
  | op :: r =>
    match b.step op with
    | .error e => .error e
    | .ok b1 => b1.run r

/-- Whether the scalar arithmetic is exact at `x` under the coefficients 0
and 1 of the identity transform: `1 * x = x`, `0 * x = 0`, `x + 0 = x` and
`0 + x = x`. -/
def IdentityExact [Add F] [Mul F] [Zero F] [One F] (x : F) : Prop :=
  1 * x = x ∧ 0 * x = 0 ∧ x + 0 = x ∧ 0 + x = x

/-- Exactness at a value can be computed where equality of scalars can. -/
instance instDecidableIdentityExact [Add F] [Mul F] [Zero F] [One F] [DecidableEq F]
    (x : F) : Decidable (IdentityExact x) := by
  unfold IdentityExact
  infer_instance

end Calls

/-! ### Floating-point special values -/

/-- Modelled from the spec: the floating-point coordinates of section 3 as far
as their special values go: a finite value (an integer, taken exactly), an
infinity of either sign, or not-a-number.  Rounding and the sign of zero are
left out. -/
inductive FloatValue where
  | finite (v : Int)
  | posInf
  | negInf
  | nan
  deriving DecidableEq, Repr

/-- The sum of IEEE 754 on the special values: not-a-number is absorbing, the
sum of the two infinities is not-a-number, an infinity absorbs a finite
value. -/
def FloatValue.add : FloatValue → FloatValue → FloatValue
  | .nan, _ => .nan
  | _, .nan => .nan
  | .finite a, .finite b => .finite (a + b)
  | .posInf, .negInf => .nan
  | .negInf, .posInf => .nan
  | .posInf, _ => .posInf
  | .negInf, _ => .negInf
  | _, .posInf => .posInf
  | _, .negInf => .negInf

/-- An infinity scaled by a finite value: not-a-number for zero, else the
infinity with the product of the signs. -/
def FloatValue.scaleInf (positive : Bool) (a : Int) : FloatValue :=
  if a = 0 then .nan
  else if 0 < a then (if positive then .posInf else .negInf)
  else (if positive then .negInf else .posInf)

/-- The product of IEEE 754 on the special values: not-a-number is absorbing,
zero times an infinity is not-a-number, otherwise the signs multiply. -/
def FloatValue.mul : FloatValue → FloatValue → FloatValue
  | .nan, _ => .nan
  | _, .nan => .nan
  | .finite a, .finite b => .finite (a * b)
  | .finite a, .posInf => FloatValue.scaleInf true a
  | .finite a, .negInf => FloatValue.scaleInf false a
  | .posInf, .finite b => FloatValue.scaleInf true b
  | .negInf, .finite b => FloatValue.scaleInf false b
  | .posInf, .posInf => .posInf
  | .negInf, .negInf => .posInf
  | .posInf, .negInf => .negInf
  | .negInf, .posInf => .negInf

/-- Sum of the special-value scalars. -/
instance instAddFloatValue : Add FloatValue := ⟨FloatValue.add⟩

/-- Product of the special-value scalars. -/
instance instMulFloatValue : Mul FloatValue := ⟨FloatValue.mul⟩

/-- Zero of the special-value scalars. -/
instance instZeroFloatValue : Zero FloatValue := ⟨.finite 0⟩

/-- One of the special-value scalars. -/
instance instOneFloatValue : One FloatValue := ⟨.finite 1⟩

/-- Ten of the special-value scalars. -/
instance instTenFloatValue : OfNat FloatValue 10 := ⟨.finite 10⟩

/-- Zero of the floating-point scalars. -/
instance instZeroFloat : Zero Float := ⟨Float.ofNat 0⟩

/-- One of the floating-point scalars. -/
instance instOneFloat : One Float := ⟨Float.ofNat 1⟩

/-- Cosine and sine of the floating-point scalars. -/
instance instTrigFloat : Trig Float := ⟨Float.cos, Float.sin⟩

/-! ## Properties of the header -/

set_option maxRecDepth 100000 in
/-- The classified lines of `umbrella.h`. -/
theorem parse_umbrella_h :
    parse umbrella_h =
      [.comment, .comment, .comment, .comment, .comment, .comment, .blank,
       .ifndefDir "SkiaKit_h", .defineDir "SkiaKit_h" "", .blank,
       .includeDir "sk_types.h", .includeDir "gr_context.h",
       .includeDir "sk_bitmap.h", .includeDir "sk_canvas.h",
       .includeDir "sk_codec.h", .includeDir "sk_colorfilter.h",
       .includeDir "sk_colorspace.h", .includeDir "sk_colortable.h",
       .includeDir "sk_data.h", .includeDir "sk_document.h",
       .includeDir "sk_drawable.h", .includeDir "sk_font.h",
       .includeDir "sk_general.h", .includeDir "sk_image.h",
       .includeDir "sk_imagefilter.h", .includeDir "sk_mask.h",
       .includeDir "sk_maskfilter.h", .includeDir "sk_matrix.h",
       .includeDir "sk_paint.h", .includeDir "sk_path.h",
       .includeDir "sk_patheffect.h", .includeDir "sk_picture.h",
       .includeDir "sk_pixmap.h", .includeDir "sk_region.h",
       .includeDir "sk_rrect.h", .includeDir "sk_shader.h",
       .includeDir "sk_stream.h", .includeDir "sk_string.h",
       .includeDir "sk_surface.h", .includeDir "sk_svg.h",
       .includeDir "sk_textblob.h", .includeDir "sk_typeface.h", .blank,
       .includeDir "sk_vertices.h", .includeDir "sk_xml.h", .blank,
       .endifDir] := by
  decide

/-- From a state where the guard macro is not defined the header emits its
include list and defines the guard macro. -/
theorem preprocess_guard_undefined (S : Finset String) (h : "SkiaKit_h" ∉ S) :
    preprocess (parse umbrella_h) S =
      some (includedHeaders (parse umbrella_h), insert "SkiaKit_h" S) := by
  rw [parse_umbrella_h]
  simp [preprocess, cppRun, cppStep, includedHeaders, h]

/-- From a state where the guard macro is defined the header emits nothing
and leaves the state as it is. -/
theorem preprocess_guard_defined (S : Finset String) (h : "SkiaKit_h" ∈ S) :
    preprocess (parse umbrella_h) S = some ([], S) := by
  rw [parse_umbrella_h]
  simp [preprocess, cppRun, cppStep, h]

/-- Claim C1: `umbrella.h` is purely declarative aggregation.  The file has 47
lines; every line that is neither blank nor a comment is an `#ifndef`, a
`#define` of a macro with no body, an `#include` or an `#endif`; and those
lines are one include guard around include directives only, so no line is a
declaration, a statement or another conditional. -/
theorem umbrella_purely_declarative :
    umbrella_h.length = 47 ∧
    (∀ l ∈ parse umbrella_h, l.isTrivia = true ∨ l.isGuardOrInclude = true) ∧
    (∀ l ∈ parse umbrella_h, ∀ t, l ≠ Line.code t) ∧
    isGuardedIncludeList (significantLines (parse umbrella_h)) = true := by
  refine ⟨by decide, ?_, ?_, ?_⟩
  · rw [parse_umbrella_h]
    decide
  · rw [parse_umbrella_h]
    intro l hl t ht
    subst ht
    simp at hl
  · rw [parse_umbrella_h]
    decide

/-- Claim C2: the include list of `umbrella.h` covers every capability the
specification names.  For each of the ten capabilities the header has an
`#include` directive for its header, and processing `umbrella.h` from any
state in which its guard macro is not defined requests that header. -/
theorem umbrella_covers_capabilities (S : Finset String) (h : "SkiaKit_h" ∉ S) :
    capabilityHeaders.map Prod.snd =
      ["sk_canvas.h", "sk_path.h", "sk_image.h", "sk_typeface.h", "sk_shader.h",
       "sk_document.h", "sk_svg.h", "sk_vertices.h", "sk_codec.h", "sk_colorspace.h"] ∧
    (∀ ch ∈ capabilityHeaders, ch.2 ∈ includedHeaders (parse umbrella_h)) ∧
    ∃ hs T, preprocess (parse umbrella_h) S = some (hs, T) ∧
      ∀ ch ∈ capabilityHeaders, ch.2 ∈ hs := by
  have hcov : ∀ ch ∈ capabilityHeaders, ch.2 ∈ includedHeaders (parse umbrella_h) := by
    rw [parse_umbrella_h]
    decide
  exact ⟨by decide, hcov, _, _, preprocess_guard_undefined S h, hcov⟩

/-- Witness of claim C2 at the empty set of defined macros. -/
theorem umbrella_covers_capabilities_witness :
    "SkiaKit_h" ∉ (∅ : Finset String) ∧
    ∃ hs T, preprocess (parse umbrella_h) ∅ = some (hs, T) ∧
      ∀ ch ∈ capabilityHeaders, ch.2 ∈ hs :=
  ⟨by simp, (umbrella_covers_capabilities ∅ (by simp)).2.2⟩

/-- Claim C8: the include guard makes the inclusion of `umbrella.h`
idempotent.  From a state where `SkiaKit_h` is not defined the header emits
its include list and defines `SkiaKit_h`; from a state where `SkiaKit_h` is
defined it emits nothing and leaves the state unchanged; and processing it
twice in a row gives the include list and the final state of processing it
once. -/
theorem umbrella_inclusion_idempotent (S : Finset String) :
    ("SkiaKit_h" ∉ S →
      preprocess (parse umbrella_h) S =
        some (includedHeaders (parse umbrella_h), insert "SkiaKit_h" S)) ∧
    ("SkiaKit_h" ∈ S → preprocess (parse umbrella_h) S = some ([], S)) ∧
    preprocessTwice (parse umbrella_h) S = preprocess (parse umbrella_h) S := by
  refine ⟨preprocess_guard_undefined S, preprocess_guard_defined S, ?_⟩
  by_cases h : "SkiaKit_h" ∈ S
  · simp [preprocessTwice, preprocess_guard_defined S h]
  · have h2 : "SkiaKit_h" ∈ insert "SkiaKit_h" S := Finset.mem_insert_self _ _
    simp [preprocessTwice, preprocess_guard_undefined S h, preprocess_guard_defined _ h2]

/-- Witness of claim C8: the first pass from the empty set of macros, and a
pass from the set that holds the guard macro only. -/
theorem umbrella_inclusion_idempotent_witness :
    preprocess (parse umbrella_h) ∅ =
        some (includedHeaders (parse umbrella_h), insert "SkiaKit_h" ∅) ∧
    preprocess (parse umbrella_h) {"SkiaKit_h"} = some ([], {"SkiaKit_h"}) :=
  ⟨(umbrella_inclusion_idempotent ∅).1 (by simp),
   (umbrella_inclusion_idempotent {"SkiaKit_h"}).2.1 (by simp)⟩

/-- Claim C9: the `#include` directives of `umbrella.h` name pairwise distinct
headers: there are exactly 34 of them and no header name occurs twice. -/
theorem umbrella_includes_distinct :
    (includedHeaders (parse umbrella_h)).length = 34 ∧
    (includedHeaders (parse umbrella_h)).Nodup := by
  rw [parse_umbrella_h]
  constructor
  · decide
  · decide

/-! ## Properties of the drawing core -/

section CoreProperties

variable {F : Type}

/-- A `close` ends the current subpath: after it no `moveTo` is in scope. -/
theorem hasMoveTo_after_close (segs : List (PathSegment F)) :
    PathBuilder.hasMoveTo { segments := segs ++ [.close] } = false := by
  simp [PathBuilder.hasMoveTo, subpathHasMoveTo]

/-- The builder a successful `close` returns has no `moveTo` in its current
subpath. -/
theorem hasMoveTo_of_close_ok (b0 b : PathBuilder F) (h : b0.close = .ok b) :
    b.hasMoveTo = false := by
  unfold PathBuilder.close at h
  split at h
  · cases h
    exact hasMoveTo_after_close b0.segments
  · cases h

/-- Exact arithmetic is exact at every value. -/
theorem identityExact_of_semiring [Semiring F] (x : F) : IdentityExact x := by
  simp [IdentityExact]

/-- A call that is neither `push` nor `pop` does not change the matching. -/
theorem matched_skip (d : Nat) (op : StackOp F) (r : List (StackOp F))
    (h1 : op ≠ .push) (h2 : op ≠ .pop) : matched d (op :: r) = matched d r := by
  cases op <;> first
    | exact absurd rfl h1
    | exact absurd rfl h2
    | (cases d <;> rfl)

variable [Add F] [Mul F] [Zero F] [One F] [Neg F] [Trig F]

/-- Running two sequences of calls one after the other. -/
theorem TransformStack.run_append (s : TransformStack F) (a b : List (StackOp F)) :
    s.run (a ++ b) =
      match s.run a with
      | .error e => .error e
      | .ok s1 => s1.run b := by
  induction a generalizing s with
  | nil => simp [TransformStack.run]
  | cons op r ih =>
    simp only [List.cons_append, TransformStack.run]
    cases hstep : s.step op with
    | error e => simp
    | ok s1 => simp [ih]

/-- A matched sequence of calls succeeds and leaves below the top exactly
what lay below the pushes that were open when it started. -/
theorem TransformStack.run_matched (ops : List (StackOp F)) :
    ∀ (s : TransformStack F) (extra base : List (Transform F)),
      s.saved = extra ++ base → matched extra.length ops = true →
      ∃ t, s.run ops = .ok { top := t, saved := base } := by
  induction ops with
  | nil =>
    intro s extra base hs hm
    have hx : extra = [] := by
      cases extra with
      | nil => rfl
      | cons a l => simp [matched] at hm
    subst hx
    refine ⟨s.top, ?_⟩
    cases s
    simp_all [TransformStack.run]
  | cons op r ih =>
    intro s extra base hs hm
    cases op with
    | push =>
      simp only [matched] at hm
      simp only [TransformStack.run, TransformStack.step]
      exact ih s.push (s.top :: extra) base (by simp [TransformStack.push, hs]) hm
    | pop =>
      cases extra with
      | nil => simp [matched] at hm
      | cons a l =>
        simp only [List.length_cons, matched] at hm
        simp only [TransformStack.run, TransformStack.step, TransformStack.pop, hs,
          List.cons_append]
        exact ih { top := a, saved := l ++ base } l base rfl hm
    | translate dx dy =>
      rw [matched_skip _ _ _ (by simp) (by simp)] at hm
      simp only [TransformStack.run, TransformStack.step]
      exact ih (s.translate dx dy) extra base hs hm
    | scale sx sy =>
      rw [matched_skip _ _ _ (by simp) (by simp)] at hm
      simp only [TransformStack.run, TransformStack.step]
      exact ih (s.scale sx sy) extra base hs hm
    | rotate angle =>
      rw [matched_skip _ _ _ (by simp) (by simp)] at hm
      simp only [TransformStack.run, TransformStack.step]
      exact ih (s.rotate angle) extra base hs hm
    | skew kx ky =>
      rw [matched_skip _ _ _ (by simp) (by simp)] at hm
      simp only [TransformStack.run, TransformStack.step]
      exact ih (s.skew kx ky) extra base hs hm

/-- Claim C3: Transform Stack save/restore round trip.  For every stack and
every sequence of translate, scale, rotate (and skew) calls, possibly with
further matched push/pop pairs inside, made after a `push()`: the sequence
succeeds, the `pop()` that matches the `push()` succeeds, and afterwards
`current()` is the Transform that was current before the `push()`; indeed the
whole stack is as it was. -/
theorem transformStack_push_pop_round_trip (s : TransformStack F)
    (ops : List (StackOp F)) (h : matched 0 ops = true) :
    ∃ s1 s2, s.push.run ops = .ok s1 ∧ s1.pop = .ok s2 ∧
      s2.current = s.current ∧
      s.run (.push :: ops ++ [.pop]) = .ok s2 ∧ s2 = s := by
  obtain ⟨t, ht⟩ :=
    TransformStack.run_matched ops s.push [] (s.top :: s.saved) rfl h
  refine ⟨_, s, ht, ?_, rfl, ?_, rfl⟩
  · cases s
    rfl
  · have h1 : s.run (.push :: ops ++ [.pop]) = s.push.run (ops ++ [.pop]) := rfl
    rw [h1, TransformStack.run_append, ht]
    cases s
    rfl

/-- Witness of claim C3 on floating-point scalars: a translation, a nested
save with a rotation, and a scaling, between a `push()` and its `pop()`. -/
theorem transformStack_push_pop_round_trip_witness :
    matched 0 [StackOp.translate (1 : Float) 2, .push, .rotate 3, .pop, .scale 2 2] = true ∧
    ∃ s1 s2, (TransformStack.new : TransformStack Float).push.run
        [.translate 1 2, .push, .rotate 3, .pop, .scale 2 2] = .ok s1 ∧
      s1.pop = .ok s2 ∧ s2.current = (TransformStack.new : TransformStack Float).current ∧
      (TransformStack.new : TransformStack Float).run
        (.push :: [.translate 1 2, .push, .rotate 3, .pop, .scale 2 2] ++ [.pop]) = .ok s2 ∧
      s2 = TransformStack.new :=
  ⟨rfl, transformStack_push_pop_round_trip TransformStack.new _ rfl⟩

/-- Claim C5: `pop()` on a Transform Stack that holds only the base fails with
`StackUnderflow`, and so does `restore()` on a Draw Context with no
outstanding `save()`: on the new stack and the new context, on every stack
with nothing saved, and on the stack that any matched sequence of calls leaves
from the new one. -/
theorem pop_on_base_underflows (ops : List (StackOp F)) (h : matched 0 ops = true) :
    (TransformStack.new : TransformStack F).pop = .error .stackUnderflow ∧
    (∀ t : Transform F,
      TransformStack.pop { top := t, saved := [] } = .error .stackUnderflow) ∧
    (DrawContext.create : DrawContext F).restore = .error .stackUnderflow ∧
    ∃ s, (TransformStack.new : TransformStack F).run ops = .ok s ∧
      s.pop = .error .stackUnderflow ∧
      DrawContext.restore { stack := s } = .error .stackUnderflow := by
  refine ⟨rfl, fun _ => rfl, rfl, ?_⟩
  obtain ⟨t, ht⟩ := TransformStack.run_matched ops (TransformStack.new : TransformStack F)
    [] [] rfl h
  exact ⟨_, ht, rfl, rfl⟩

/-- Witness of claim C5 on floating-point scalars: after a translation and a
matched save/restore around a scaling nothing is saved, and `pop()` fails. -/
theorem pop_on_base_underflows_witness :
    matched 0 [StackOp.translate (1 : Float) 2, .push, .scale 2 2, .pop] = true ∧
    ∃ s, (TransformStack.new : TransformStack Float).run
        [.translate 1 2, .push, .scale 2 2, .pop] = .ok s ∧
      s.pop = .error .stackUnderflow ∧
      DrawContext.restore { stack := s } = .error .stackUnderflow :=
  ⟨rfl, (pop_on_base_underflows
    [StackOp.translate (1 : Float) 2, .push, .scale 2 2, .pop] rfl).2.2.2⟩

end CoreProperties

section BuilderProperties

variable {F : Type}

/-- Claim C4: the Path Builder rejects segments outside a subpath.  In every
builder state whose current subpath has no prior `moveTo` (the fresh builder
and the builder a `close()` returns are such states) `lineTo`, `cubicTo`,
`quadTo` and `close` fail with `InvalidPathState`; and after `moveTo`,
`lineTo`, `close` a second `lineTo` fails, while it succeeds once a new
`moveTo` precedes it. -/
theorem pathBuilder_rejects_outside_subpath (b : PathBuilder F)
    (h : b = PathBuilder.empty ∨ (∃ b0 : PathBuilder F, b0.close = .ok b) ∨
      b.hasMoveTo = false) :
    (∀ p, b.lineTo p = .error .invalidPathState) ∧
    (∀ p1 p2 p3, b.cubicTo p1 p2 p3 = .error .invalidPathState) ∧
    (∀ p1 p2, b.quadTo p1 p2 = .error .invalidPathState) ∧
    b.close = .error .invalidPathState ∧
    (∀ p0 p1 p2 : Point F, ∃ b1 b2 b3,
      PathBuilder.empty.moveTo p0 = .ok b1 ∧ b1.lineTo p1 = .ok b2 ∧
      b2.close = .ok b3 ∧ b3.lineTo p2 = .error .invalidPathState ∧
      ∀ p3, ∃ b4 b5, b3.moveTo p3 = .ok b4 ∧ b4.lineTo p2 = .ok b5) := by
  have hb : b.hasMoveTo = false := by
    rcases h with h | ⟨b0, h⟩ | h
    · subst h
      rfl
    · exact hasMoveTo_of_close_ok b0 b h
    · exact h
  refine ⟨?_, ?_, ?_, ?_, ?_⟩
  · intro p
    simp [PathBuilder.lineTo, hb]
  · intro p1 p2 p3
    simp [PathBuilder.cubicTo, hb]
  · intro p1 p2
    simp [PathBuilder.quadTo, hb]
  · simp [PathBuilder.close, hb]
  · intro p0 p1 p2
    refine ⟨{ segments := [.moveTo p0] }, { segments := [.moveTo p0, .lineTo p1] },
      { segments := [.moveTo p0, .lineTo p1, .close] }, rfl, rfl, rfl, rfl, ?_⟩
    intro p3
    exact ⟨{ segments := [.moveTo p0, .lineTo p1, .close, .moveTo p3] },
      { segments := [.moveTo p0, .lineTo p1, .close, .moveTo p3, .lineTo p2] }, rfl, rfl⟩

/-- Witness of claim C4 on integer coordinates: the builder that `moveTo`,
`lineTo`, `close` leave rejects `lineTo`, `cubicTo`, `quadTo` and `close`. -/
theorem pathBuilder_rejects_outside_subpath_witness :
    (∃ b0 : PathBuilder Int, b0.close =
      .ok { segments := [.moveTo ⟨0, 0⟩, .lineTo ⟨1, 0⟩, .close] }) ∧
    (∀ p, PathBuilder.lineTo
      ({ segments := [.moveTo ⟨0, 0⟩, .lineTo ⟨1, 0⟩, .close] } : PathBuilder Int) p =
        .error .invalidPathState) ∧
    PathBuilder.close ({ segments := [.moveTo ⟨0, 0⟩, .lineTo ⟨1, 0⟩, .close] } :
      PathBuilder Int) = .error .invalidPathState :=
  have hc : ∃ b0 : PathBuilder Int, b0.close =
      .ok { segments := [.moveTo ⟨0, 0⟩, .lineTo ⟨1, 0⟩, .close] } :=
    ⟨{ segments := [.moveTo ⟨0, 0⟩, .lineTo ⟨1, 0⟩] }, rfl⟩
  ⟨hc, (pathBuilder_rejects_outside_subpath _ (Or.inr (Or.inl hc))).1,
    (pathBuilder_rejects_outside_subpath _ (Or.inr (Or.inl hc))).2.2.2.1⟩

/-- Claim C6: `build()` on an empty Path Builder returns a Path with zero
segments (and an empty builder), and `drawPath` of that Path fails with
`EmptyPath` for every Paint, every Draw Context state and every sink. -/
theorem build_empty_drawPath_fails [Add F] [Mul F] :
    (PathBuilder.empty : PathBuilder F).build.1.segments = [] ∧
    (PathBuilder.empty : PathBuilder F).build.1.segments.length = 0 ∧
    (PathBuilder.empty : PathBuilder F).build.2 = PathBuilder.empty ∧
    ∀ (sink : DrawInstruction F → Except RenderError Unit) (c : DrawContext F)
      (paint : Paint F),
      c.drawPath sink (PathBuilder.empty : PathBuilder F).build.1 paint =
        .error .emptyPath :=
  ⟨rfl, rfl, rfl, fun _ _ _ => rfl⟩

end BuilderProperties

end SkiaKit
